import Mathlib

/-!
Verification of the pyxem indexation and vector utilities.

This file shallowly embeds the functions of
`src/pyxem/utils/indexation_utils.py` and `src/pyxem/utils/vectors.py`
that the verified claims are about, and proves or refutes each claim.

Modelling conventions:
* numpy float arithmetic is modelled over `ℚ` where the source only
  compares, adds, multiplies and divides scores (result reduction,
  `keep`-validation), and over `ℝ` where square roots or trigonometric
  functions occur (norms, angles, correlations, rotations).
* Field/`ℚ`/`ℝ` division by zero is total (`x / 0 = 0`) in Lean; places
  where numpy would instead produce `nan`/`inf` are noted in comments.
* Python exceptions (`IndexError` from out-of-range indexing,
  `ValueError` from `np.partition` on too-short arrays or from invalid
  configuration) are modelled with `Option`/`Except`: `none` /
  `Except.error` means the source raises.
* `np.empty(..., dtype=object)` yields uninitialised entries that read
  as `None`; such slots are modelled as `none`.
-/

namespace Pyxem

/-! ## Result reduction: `crystal_from_template_matching`
    (indexation_utils.py lines 708-768)

A template-matching row `[phase, [z, x, z], correlation]` for one
navigation position. -/

structure TMatch where
  phase : ℕ
  ori : ℚ × ℚ × ℚ
  score : ℚ
deriving DecidableEq

/-- The crystallographic-map entry produced by
`crystal_from_template_matching`: `[phase, (z, x, z), metrics]` with the
metrics dict flattened into named fields.  `phase_reliability` is absent
(`none`) in the single-phase branch. -/
structure CrystalTM where
  phase : ℕ
  ori : ℚ × ℚ × ℚ
  correlation : ℚ
  orientation_reliability : ℚ
  phase_reliability : Option ℚ
deriving DecidableEq

/-- Index of the first occurrence of the maximum of a list
(`np.argmax`); 0 on the empty list (numpy raises there, callers guard). -/
def idxOfMax {α : Type} [LinearOrder α] : List α → ℕ
  | [] => 0
  | [_] => 0
  | x :: y :: ys =>
    if x < (y :: ys).getD (idxOfMax (y :: ys)) y then idxOfMax (y :: ys) + 1 else 0

/-- Index of the first occurrence of the minimum of a list
(`np.argmin`); 0 on the empty list. -/
def idxOfMin {α : Type} [LinearOrder α] : List α → ℕ
  | [] => 0
  | [_] => 0
  | x :: y :: ys =>
    if (y :: ys).getD (idxOfMin (y :: ys)) y < x then idxOfMin (y :: ys) + 1 else 0

/-- `np.partition(l, -2)[-2]`: the second-largest element of `l` counted
with multiplicity, i.e. entry 1 of `l` sorted descending.  numpy raises
a `ValueError` when `l` has fewer than two entries: `none`. -/
def secondLargest (l : List ℚ) : Option ℚ :=
  (List.insertionSort (fun a b : ℚ => b ≤ a) l).get? 1

/-- The row of `z` at the first index attaining the maximal score
(`z_matches[np.argmax(z_matches[:, 2])]`), for nonempty `z = z0 :: rest`. -/
def bestRow (z0 : TMatch) (rest : List TMatch) : TMatch :=
  (z0 :: rest).getD (idxOfMax ((z0 :: rest).map (·.score))) z0

/-- Scores of the rows of `z` whose phase equals `p`
(`z_matches[z_matches[:, 0] == p][:, 2]`). -/
def samePhaseScores (z : List TMatch) (p : ℕ) : List ℚ :=
  (z.filter (fun m => m.phase = p)).map (·.score)

/-- Scores of the rows of `z` whose phase differs from `p`
(`z_matches[z_matches[:, 0] != p][:, 2]`). -/
def otherPhaseScores (z : List TMatch) (p : ℕ) : List ℚ :=
  (z.filter (fun m => m.phase ≠ p)).map (·.score)

/-- `crystal_from_template_matching` (indexation_utils.py 708-768).

Single-phase branch (`np.unique(z[:, 0]).shape[0] == 1`): best is row 0;
`orientation_reliability = 100*(1 - z[1,2]/z[0,2])` when `z[0,2] > 0`
(row 1 is only read in that case), else `100`.
Multi-phase branch: best is the arg-max-score row;
`orientation_reliability` compares against the second-largest same-phase
score (`np.partition(..., -2)[-2]`), `phase_reliability` against the
largest other-phase score (`np.max`).  Failing array accesses are `none`. -/
def crystal_from_template_matching : List TMatch → Option CrystalTM
  | [] => none
  | z0 :: rest =>
    if (z0 :: rest).all (fun m => m.phase = z0.phase) then
      if 0 < z0.score then
        match rest with
        | [] => none
        | z1 :: _ =>
          some ⟨z0.phase, z0.ori, z0.score, 100 * (1 - z1.score / z0.score), none⟩
      else
        some ⟨z0.phase, z0.ori, z0.score, 100, none⟩
    else
      match secondLargest (samePhaseScores (z0 :: rest) (bestRow z0 rest).phase),
            (otherPhaseScores (z0 :: rest) (bestRow z0 rest).phase).max? with
      | some so, some sp =>
        some ⟨(bestRow z0 rest).phase, (bestRow z0 rest).ori, (bestRow z0 rest).score,
              100 * (1 - so / (bestRow z0 rest).score),
              some (100 * (1 - sp / (bestRow z0 rest).score))⟩
      | _, _ => none

/-! ## Result reduction: `crystal_from_vector_matching`
    (indexation_utils.py lines 771-843)

A vector-matching solution (the `OrientationResult` namedtuple).  The
rotation matrix is kept abstract (`α`): the claims never inspect it, and
`mat2euler` (external library `transforms3d`) is passed in as a pure
function, as the spec prescribes for crystallography helpers. -/

structure VMatch (α : Type) where
  phase_index : ℕ
  rotation_matrix : α
  match_rate : ℚ
  error_hkls : List ℚ
  total_error : ℚ
deriving DecidableEq

/-- The crystallographic-map entry of `crystal_from_vector_matching`:
phase, Euler angles in degrees (`np.rad2deg(mat2euler(R, "rzxz"))`,
computed by the external `mat2euler` collaborator), and the metrics dict
flattened into fields. -/
structure CrystalVM where
  phase : ℕ
  euler : ℚ × ℚ × ℚ
  match_rate : ℚ
  error_hkls : List ℚ
  total_error : ℚ
  orientation_reliability : ℚ
  phase_reliability : Option ℚ
deriving DecidableEq

/-- Python's stable `sorted(l, key=attrgetter("total_error"))`
(ascending) used by `get_nth_best_solution(..., "vector",
key="total_error", descending=False)`. -/
def sortByTotalError {α : Type} (z : List (VMatch α)) : List (VMatch α) :=
  List.insertionSort (fun a b => a.total_error ≤ b.total_error) z

/-- The rows of another phase than the best match
(`other_phase_matches`, line 811-813). -/
def vmOther {α : Type} (z : List (VMatch α)) (best : VMatch α) : List (VMatch α) :=
  z.filter (fun m => m.phase_index ≠ best.phase_index)

/-- The orientation runner-up of `crystal_from_vector_matching` (lines
824-835): second same-phase row when other phases are present, second
row overall otherwise; `none` models the `IndexError` raised when the
required row is missing. -/
def vmRunnerUp {α : Type} (z : List (VMatch α)) (best : VMatch α)
    (restSorted : List (VMatch α)) : Option (VMatch α) :=
  if (vmOther z best).isEmpty then restSorted.get? 0
  else (sortByTotalError (z.filter (fun m => m.phase_index = best.phase_index))).get? 1

/-- The `phase_reliability` metric of `crystal_from_vector_matching`
(lines 815-822): present only when rows of another phase exist, dividing
by the best other-phase `total_error` with no zero-divisor guard (numpy
would emit `inf`/`nan` there; `ℚ` totalizes as `x / 0 = 0`). -/
def vmPhaseRel {α : Type} (z : List (VMatch α)) (best : VMatch α) : Option (Option ℚ) :=
  if (vmOther z best).isEmpty then some none
  else
    match sortByTotalError (vmOther z best) with
    | [] => none
    | sbp :: _ => some (some (100 * (1 - best.total_error / sbp.total_error)))

/-- Assembly of the `crystal_from_vector_matching` result from the best
row, the orientation runner-up and the phase-reliability computation;
`Python: second_match.total_error or 1.0` substitutes `1.0` exactly when
the runner-up's error equals `0.0`. -/
def crystalVMCombine {α : Type} (mat2euler_deg : α → ℚ × ℚ × ℚ)
    (best : VMatch α) : Option (VMatch α) → Option (Option ℚ) → Option CrystalVM
  | some second, some pr =>
    some ⟨best.phase_index, mat2euler_deg best.rotation_matrix,
          best.match_rate, best.error_hkls, best.total_error,
          100 * (1 - best.total_error /
            (if second.total_error = 0 then 1 else second.total_error)),
          pr⟩
  | _, _ => none

/-- `crystal_from_vector_matching` on the sorted-by-error pool. -/
def crystalVMAux {α : Type} (mat2euler_deg : α → ℚ × ℚ × ℚ)
    (z : List (VMatch α)) : List (VMatch α) → Option CrystalVM
  | [] => none
  | best :: restSorted =>
    crystalVMCombine mat2euler_deg best (vmRunnerUp z best restSorted)
      (vmPhaseRel z best)

/-- `crystal_from_vector_matching` (indexation_utils.py 771-843).

Best match: smallest `total_error`.  If rows of another phase exist,
`phase_reliability = 100*(1 - best_err/second_best_phase_err)` (no
zero-divisor guard in the source) and the orientation runner-up is the
second same-phase row; otherwise the runner-up is the second row
overall.  `orientation_reliability = 100*(1 - best_err/(second_err or
1.0))`: Python's `or` substitutes `1.0` exactly when
`second_err == 0.0`.  Missing rows (`sorted(...)[1]` / `[rank]` out of
range) raise `IndexError`: `none`. -/
def crystal_from_vector_matching {α : Type} (mat2euler_deg : α → ℚ × ℚ × ℚ)
    (z : List (VMatch α)) : Option CrystalVM :=
  crystalVMAux mat2euler_deg z (sortByTotalError z)

/-! ## Two-stage polar matchers: the `keep` parameter (C7)
    (indexation_utils.py lines 1321-1436)

`get_n_best_matches` and `correlate_library_to_pattern_partial` first
prepare the polar image and templates (`_prepare_image_and_templates`,
whose polar-transform internals live outside the matching core), then
derive the coarse-filter `fraction` from the user-facing `keep`, then run
the matching kernels.  Here the prepared data and the downstream matching
pipeline (`_get_integrated_polar_templates`, `_mixed_matching_lib_to_polar`
resp. the percentile filter plus `_match_polar_to_polar_library`) are
abstracted as the parameters `prepared` and `pipeline`; proving facts for
*every* `pipeline` captures that invalid configuration is rejected before
any matching work is consulted. -/

/-- The `keep`-to-`fraction` derivation shared verbatim by
`get_n_best_matches` (lines 1424-1429) and
`correlate_library_to_pattern_partial` (lines 1357-1362);
`n_templates = theta_templates.shape[0]`. -/
def keep_to_fraction (n_templates : ℕ) (keep : ℚ) : Except String ℚ :=
  if 1 ≤ keep then
    Except.ok (max ((n_templates - keep) / n_templates) 0)
  else if 0 < keep ∧ keep ≤ 1 then
    Except.ok (1 - keep)
  else
    Except.error "keep should be an integer >1 or a float [0-1]"

/-- `get_n_best_matches` (indexation_utils.py 1384-1436) with the polar
preparation and the matching stage abstracted as parameters. -/
def get_n_best_matches {α β : Type} (prepared : α) (n_templates : ℕ)
    (keep : ℚ) (n_best : ℕ) (pipeline : α → ℚ → ℕ → β) : Except String β :=
  match keep_to_fraction n_templates keep with
  | Except.error e => Except.error e
  | Except.ok fraction => Except.ok (pipeline prepared fraction n_best)

/-- `correlate_library_to_pattern_partial` (indexation_utils.py
1321-1381) with the polar preparation and the percentile-filtered
matching stage abstracted as parameters. -/
def correlate_library_to_pattern_partial {α β : Type} (prepared : α)
    (n_templates : ℕ) (keep : ℚ) (pipeline : α → ℚ → β) : Except String β :=
  match keep_to_fraction n_templates keep with
  | Except.error e => Except.error e
  | Except.ok fraction => Except.ok (pipeline prepared fraction)

/-! ## Geometry utilities (vectors.py)

Real-valued 3-vectors and the rotation-recovery routine
`get_rotation_matrix_between_vectors` (vectors.py 164-245), plus the
polar conversions `vectors_to_polar` / `polar_to_cartesian`
(vectors.py 410-433, 448-451). -/

noncomputable section
open scoped Classical

/-- A 3-vector of reals. -/
abbrev Vec3 : Type := Fin 3 → ℝ

/-- Dot product of two 3-vectors. -/
def dot3 (a b : Vec3) : ℝ := a 0 * b 0 + a 1 * b 1 + a 2 * b 2

/-- `np.cross` of two 3-vectors. -/
def cross3 (a b : Vec3) : Vec3 :=
  ![a 1 * b 2 - a 2 * b 1, a 2 * b 0 - a 0 * b 2, a 0 * b 1 - a 1 * b 0]

/-- `np.sum(np.abs(v))` for a 3-vector. -/
def sumabs3 (a : Vec3) : ℝ := |a 0| + |a 1| + |a 2|

/-- `np.linalg.norm` of a 3-vector. -/
def norm3 (a : Vec3) : ℝ := Real.sqrt (dot3 a a)

/-- `np.isclose(x, 0.0)` with numpy defaults: `|x - 0| ≤ atol + rtol*|0|`,
i.e. `|x| ≤ 1e-8`. -/
def isclose0 (x : ℝ) : Prop := |x| ≤ 1 / 10 ^ 8

/-- `normalize_or_zero` (vectors.py 150-161): divide by the norm when it
is positive, otherwise return the vector unchanged. -/
def normalize_or_zero (v : Vec3) : Vec3 :=
  if 0 < norm3 v then (norm3 v)⁻¹ • v else v

/-- `np.clip(x, -1.0, 1.0)`. -/
def clipPM1 (x : ℝ) : ℝ := min 1 (max (-1) x)

/-- `get_angle_cartesian` / rowwise `get_angle_cartesian_vec`
(vectors.py 264-313): 0 when either norm vanishes, else the arccos of
the clipped normalized dot product. -/
def get_angle_cartesian (a b : Vec3) : ℝ :=
  if norm3 a * norm3 b = 0 then 0
  else Real.arccos (clipPM1 (dot3 a b / (norm3 a * norm3 b)))

/-- `transforms3d.axangles.axangle2mat(axis, angle, is_normalized=True)`
(external dependency): the Rodrigues rotation matrix about `axis` by
`angle`, written out entrywise exactly as that library does. -/
def axangle2mat (ax : Vec3) (angle : ℝ) : Matrix (Fin 3) (Fin 3) ℝ :=
  let x := ax 0
  let y := ax 1
  let z := ax 2
  let c := Real.cos angle
  let s := Real.sin angle
  let C := 1 - c
  !![x * (x * C) + c, x * (y * C) - z * s, z * (x * C) + y * s;
     x * (y * C) + z * s, y * (y * C) + c, y * (z * C) - x * s;
     z * (x * C) - y * s, y * (z * C) + x * s, z * (z * C) + c]

/-- One row of `get_rotation_matrix_between_vectors` (vectors.py
164-245); the numpy implementation is vectorized over the target rows
and every step acts rowwise. -/
def rowRotation (f1 f2 to1 to2 : Vec3) : Matrix (Fin 3) (Fin 3) ℝ :=
  let plane_normal_from := cross3 f1 f2
  let plane_normal_to0 := cross3 to1 to2
  let plane_common_axes0 := cross3 plane_normal_from plane_normal_to0
  -- degenerate to-plane replacement (lines 189-192)
  let plane_normal_to1 :=
    if isclose0 (sumabs3 plane_normal_to0) then cross3 f1 to1 else plane_normal_to0
  let plane_normal_to2 :=
    if isclose0 (sumabs3 plane_normal_to1) then cross3 f2 to2 else plane_normal_to1
  -- normalization (lines 195-196)
  let plane_normal_to := normalize_or_zero plane_normal_to2
  let plane_common_axes := normalize_or_zero plane_common_axes0
  -- rotation from-plane -> to-plane (lines 199-213)
  let angleR1 := get_angle_cartesian plane_normal_from plane_normal_to
  let R1 :=
    if ¬ isclose0 (sumabs3 plane_common_axes) then axangle2mat plane_common_axes angleR1
    else 1
  -- in-plane rotation (lines 216-240)
  let rot_from_v1 : Vec3 := R1.mulVec f1
  let rot_from_v2 : Vec3 := R1.mulVec f2
  let avgAngle := (get_angle_cartesian rot_from_v1 to1 +
                   get_angle_cartesian rot_from_v2 to2) / 2
  let ang :=
    if dot3 (cross3 rot_from_v1 to1) plane_normal_to < 0 then -avgAngle else avgAngle
  let R2 := axangle2mat plane_normal_to ang
  R2 * R1

/-- `get_rotation_matrix_between_vectors` (vectors.py 164-245): one
rotation matrix per target pair. -/
def get_rotation_matrix_between_vectors (from_v1 from_v2 : Vec3)
    (tos : List (Vec3 × Vec3)) : List (Matrix (Fin 3) (Fin 3) ℝ) :=
  tos.map (fun t => rowRotation from_v1 from_v2 t.1 t.2)

/-- `vectors_to_polar` (vectors.py 410-433) restricted to two-column
vector arrays (the claim's "generic 2D vectors"; the pass-through of
columns 2: is the identity there):
`r = np.linalg.norm(v)`, `theta = np.arctan2(y, x)`.
`np.arctan2(y, x)` is `Complex.arg (x + y*I)` (same branch and
`arctan2(0, 0) = 0` convention). -/
def vectors_to_polar (v : List (ℝ × ℝ)) : List (ℝ × ℝ) :=
  v.map (fun p => (Real.sqrt (p.1 * p.1 + p.2 * p.2), Complex.arg ⟨p.1, p.2⟩))

/-- `polar_to_cartesian` (vectors.py 448-451):
`(k*cos(phi), k*sin(phi))` per row. -/
def polar_to_cartesian (v : List (ℝ × ℝ)) : List (ℝ × ℝ) :=
  v.map (fun p => (p.1 * Real.cos p.2, p.1 * Real.sin p.2))

/-! ## Correlation metrics and `correlate_library`
    (indexation_utils.py lines 79-172 and 304-426) -/

/-- Elementwise product sum, `np.sum(np.multiply(a, b))` for
equal-length 1D arrays. -/
def dotList (a b : List ℝ) : ℝ := ((a.zip b).map (fun p => p.1 * p.2)).sum

/-- Sum of a list of reals. -/
def sumList (l : List ℝ) : ℝ := l.sum

/-- `np.average(l)`; numpy emits `nan` on an empty list, here `0/0 = 0`. -/
def averageList (l : List ℝ) : ℝ := l.sum / l.length

/-- `fast_correlation` (indexation_utils.py 79-108):
`np.sum(np.multiply(image_intensities, int_local)) / pn_local`. -/
def fast_correlation (image_intensities int_local : List ℝ) (pn_local : ℝ) : ℝ :=
  dotList image_intensities int_local / pn_local

/-- `average_pattern_intensity` of `zero_mean_normalized_correlation`
(line 154): `nb_pixels_star * np.average(int_local) / nb_pixels`. -/
def average_pattern_intensity (nb_pixels : ℕ) (int_local : List ℝ) : ℝ :=
  int_local.length * averageList int_local / nb_pixels

/-- `match_numerator` of `zero_mean_normalized_correlation` (156-159). -/
def match_numerator (nb_pixels : ℕ) (average_image_intensity : ℝ)
    (image_intensities int_local : List ℝ) : ℝ :=
  dotList image_intensities int_local -
    nb_pixels * average_image_intensity * average_pattern_intensity nb_pixels int_local

/-- `match_denominator` of `zero_mean_normalized_correlation` (160-163):
`image_std * (np.linalg.norm(int_local - avg) + (nb_pixels - nb_pixels_star) * avg^2)`. -/
def match_denominator (nb_pixels : ℕ) (image_std : ℝ) (int_local : List ℝ) : ℝ :=
  image_std *
    (Real.sqrt ((int_local.map
        (fun t => (t - average_pattern_intensity nb_pixels int_local) ^ 2)).sum) +
      ((nb_pixels : ℝ) - int_local.length) *
        average_pattern_intensity nb_pixels int_local ^ 2)

/-- `zero_mean_normalized_correlation` (indexation_utils.py 111-172):
returns 0 when `match_denominator == 0`, otherwise the normalized dot
product. -/
def zero_mean_normalized_correlation (nb_pixels : ℕ)
    (image_std average_image_intensity : ℝ)
    (image_intensities int_local : List ℝ) : ℝ :=
  if match_denominator nb_pixels image_std int_local = 0 then 0
  else
    match_numerator nb_pixels average_image_intensity image_intensities int_local /
      match_denominator nb_pixels image_std int_local

/-- The experimental image for `correlate_library`: pixel grid with its
dimensions (row index first, `image[y, x]`). -/
structure ImageR where
  rows : ℕ
  cols : ℕ
  px : ℕ → ℕ → ℝ

/-- `np.average(image)` over all pixels. -/
def imageAvg (img : ImageR) : ℝ :=
  (∑ i ∈ Finset.range img.rows, ∑ j ∈ Finset.range img.cols, img.px i j) /
    (img.rows * img.cols)

/-- `np.linalg.norm(image - np.average(image))` (line 376). -/
def imageStd (img : ImageR) : ℝ :=
  Real.sqrt (∑ i ∈ Finset.range img.rows, ∑ j ∈ Finset.range img.cols,
    (img.px i j - imageAvg img) ^ 2)

/-- One library template for `correlate_library`: orientation triplet,
nonzero-pixel coordinates `(x, y)`, intensities, pattern norm. -/
structure TemplateR where
  ori : ℝ × ℝ × ℝ
  pixel_coords : List (ℕ × ℕ)
  intensities : List ℝ
  pattern_norm : ℝ

/-- The `method` string of `correlate_library` (only these two are
dispatched there; `full_frame_correlation` lives in
`correlate_library_from_dict`). -/
inductive CorrMethod
  | fast_corr
  | zero_mean

/-- The per-template score of `correlate_library` (lines 390-409):
intensities are sampled at `image[px_local[:, 1], px_local[:, 0]]`. -/
def corrScore (img : ImageR) (method : CorrMethod) (t : TemplateR) : ℝ :=
  let image_intensities := t.pixel_coords.map (fun c => img.px c.2 c.1)
  match method with
  | CorrMethod.fast_corr => fast_correlation image_intensities t.intensities t.pattern_norm
  | CorrMethod.zero_mean =>
    zero_mean_normalized_correlation (img.rows * img.cols) (imageStd img)
      (imageAvg img) image_intensities t.intensities

/-- One row of the `correlate_library` output:
`[phase_index, [z, x, z], correlation]`. -/
abbrev CorrRow : Type := ℕ × (ℝ × ℝ × ℝ) × ℝ

/-- The online top-K replace-the-minimum step (lines 411-413): when the
new correlation beats the smallest saved one, overwrite the arg-min slot. -/
def topKStep (acc : List (ℝ × ℝ × ℝ) × List ℝ) (ori : ℝ × ℝ × ℝ) (corr : ℝ) :
    List (ℝ × ℝ × ℝ) × List ℝ :=
  if (acc.2.min?.getD 0) < corr then
    (acc.1.set (idxOfMin acc.2) ori, acc.2.set (idxOfMin acc.2) corr)
  else acc

/-- The per-phase block of `correlate_library` (lines 379-424): start
from `corr_saved = np.zeros(n_largest)` (and `or_saved = np.empty`,
whose unspecified contents are modelled as zeros — they surface only
through slots never overwritten, which no claim inspects), fold the
top-K step over the phase's templates, then sort descending by
correlation and tag with the phase index.  A phase with no templates
never writes its block: its `np.empty(dtype=object)` slots stay `None`.
The descending sort in the source is `np.flip(argsort)` (ascending
stable, then reversed); ties therefore come out in reversed input order
there, while `insertionSort` keeps them in input order — no claim
depends on tie order. -/
def phaseTopMatches (img : ImageR) (method : CorrMethod) (n_largest : ℕ)
    (phase_index : ℕ) (templates : List TemplateR) : List (Option CorrRow) :=
  match templates with
  | [] => List.replicate n_largest none
  | _ =>
    let final := templates.foldl
      (fun acc t => topKStep acc t.ori (corrScore img method t))
      (List.replicate n_largest ((0, 0, 0) : ℝ × ℝ × ℝ),
       List.replicate n_largest (0 : ℝ))
    (List.insertionSort (fun a b : (ℝ × ℝ × ℝ) × ℝ => b.2 ≤ a.2)
        (final.1.zip final.2)).map
      (fun oc => some (phase_index, oc.1, oc.2))

/-- Concatenation of per-phase blocks with a running phase index (the
flattened `top_matches.reshape(-1, 3)` layout shared by
`correlate_library` and `match_vectors`). -/
def segmentsJoin {φ ρ : Type} (f : ℕ → φ → List ρ) : ℕ → List φ → List ρ
  | _, [] => []
  | i, x :: xs => f i x ++ segmentsJoin f (i + 1) xs

/-! ## Vector matching: `match_vectors`
    (indexation_utils.py lines 530-705) -/

/-- One phase of the `VectorLibrary` zipped with its structure: the
precomputed hkl-pair table (`phase["indices"]`, parallel to
`phase["measurements"]` holding `(mag1, mag2, angle)` per row), and the
external crystallography helpers `lattice_recip.cartesian` /
`lattice_recip.fractional`, consumed as pure functions per the spec. -/
structure PhaseV where
  indices : List (Vec3 × Vec3)
  measurements : List (ℝ × ℝ × ℝ)
  cartesian : Vec3 → Vec3
  fractional : Vec3 → Vec3

/-- The `OrientationResult` namedtuple over the reals, as produced by
`match_vectors`. -/
structure OrientationResultR where
  phase_index : ℕ
  rotation_matrix : Matrix (Fin 3) (Fin 3) ℝ
  match_rate : ℝ
  error_hkls : List Vec3
  total_error : ℝ
  scale : ℝ
  center_x : ℝ
  center_y : ℝ

/-- The sentinel "no match" entry used to pad a phase's block (lines
683-695): phase 0, identity rotation, match rate 0, total error 1. -/
def dummyOrientationResult : OrientationResultR :=
  ⟨0, 1, 0, [], 1, 1, 0, 0⟩

/-- Modelled from the spec: `_cart2polar` (pyxem.utils.expt_utils, not
under src/) supplies the polar angle used by `_choose_peak_ids` for its
angular stratification ("sort by polar angle, take evenly spaced
indices", spec 4.3); the polar angle of the in-plane components is
`arctan2(y, x)`. -/
def peakAngle (p : Vec3) : ℝ := Complex.arg ⟨p 0, p 1⟩

/-- `np.linspace(0, m-1, k, dtype=np.int)` (value-truncated): the `k`
evenly spaced indices over `0..m-1`. -/
def linspaceIdx (m k : ℕ) : List ℕ :=
  (List.range k).map (fun i => if k ≤ 1 then 0 else i * (m - 1) / (k - 1))

/-- `_choose_peak_ids` (indexation_utils.py 462-483): argsort the peaks
by polar angle, pick the linspace positions of that order.  (numpy's
default argsort is unstable on ties; a stable sort is one of its
admissible outcomes.) -/
def choose_peak_ids (peaks : List Vec3) (n_peaks_to_index : ℕ) : List ℕ :=
  let sortedIds := List.insertionSort
    (fun i j => peakAngle (peaks.getD i 0) ≤ peakAngle (peaks.getD j 0))
    (List.range peaks.length)
  (linspaceIdx peaks.length n_peaks_to_index).map (fun t => sortedIds.getD t 0)

/-- `itertools.combinations(l, 2)` in order. -/
def pairCombinations : List ℕ → List (ℕ × ℕ)
  | [] => []
  | x :: xs => xs.map (fun y => (x, y)) ++ pairCombinations xs

/-- `np.rint` componentwise; numpy rounds half to even while `round`
rounds half up — the claims never evaluate at half-integers. -/
def rint3 (v : Vec3) : Vec3 := fun i => (round (v i) : ℤ)

/-- Componentwise `np.abs(hkls - rhkls)`. -/
def ehkl3 (v : Vec3) : Vec3 := fun i => |v i - rint3 v i|

/-- `np.max` over the three hkl error components. -/
def max3 (v : Vec3) : ℝ := max (v 0) (max (v 1) (v 2))

/-- A candidate solution of one (pair, library-row) comparison together
with its rounded hkl indexation (`rhkls`), accumulated into `res_rhkls`. -/
structure VCandidate where
  sol : OrientationResultR
  rhkls : List Vec3

/-- The default `PhaseV` used only as the out-of-range fallback of
`List.getD` in theorem statements. -/
def defaultPhaseV : PhaseV := ⟨[], [], fun _ => 0, fun _ => 0⟩

/-- The staged tolerance mask of `match_vectors` (lines 611-617): keep
the library rows whose `(mag1, mag2, angle)` measurements all lie
strictly within the tolerances of the pair's `(q1_len, q2_len, angle)`. -/
def pairTolFilter (ph : PhaseV) (q1l q2l angle mag_tol angle_tol : ℝ) :
    List ((ℝ × ℝ × ℝ) × (Vec3 × Vec3)) :=
  (ph.measurements.zip ph.indices).filter
    (fun mi => |mi.1.1 - q1l| < mag_tol ∧ |mi.1.2.1 - q2l| < mag_tol ∧
               |mi.1.2.2 - angle| < angle_tol)

/-- The body of the peak-pair loop of `match_vectors` (lines 594-667)
for one pair `(i, j)` of peak ids: order the pair by magnitude, filter
the phase's measurement rows within the tolerances, and for each
surviving row recover the rotation, index all peaks, and keep the
candidate when its match rate is positive. -/
def pairCandidates (peaks : List Vec3) (phase_index : ℕ) (ph : PhaseV)
    (mag_tol angle_tol index_error_tol : ℝ) (pr : ℕ × ℕ) : List VCandidate :=
  let q1o := peaks.getD pr.1 0
  let q2o := peaks.getD pr.2 0
  -- ensure q1 is longer than q2 (lines 601-604)
  let q1 := if norm3 q1o < norm3 q2o then q2o else q1o
  let q2 := if norm3 q1o < norm3 q2o then q1o else q2o
  let angle := get_angle_cartesian q1 q2
  (pairTolFilter ph (norm3 q1) (norm3 q2) angle mag_tol angle_tol).filterMap
    (fun mi =>
    let R := rowRotation q1 q2 (ph.cartesian mi.2.1) (ph.cartesian mi.2.2)
    let hklss := peaks.map (fun p => ph.fractional (R.mulVec p))
    let ehklss := hklss.map ehkl3
    let valid_peak_count := (hklss.filter (fun h => max3 (ehkl3 h) < index_error_tol)).length
    let error_mean := (ehklss.map (fun e => e 0 + e 1 + e 2)).sum / (peaks.length * 3)
    let match_rate : ℝ := if peaks.length = 0 then 0 else valid_peak_count / peaks.length
    if 0 < match_rate then
      some ⟨⟨phase_index, R, match_rate, ehklss, error_mean, 1, 0, 0⟩,
            hklss.map rint3⟩
    else none)

/-- All candidate solutions of one phase: the pair loop over the chosen
peak ids. -/
def phaseCandidates (peaks : List Vec3) (phase_index : ℕ) (ph : PhaseV)
    (mag_tol angle_tol index_error_tol : ℝ) (n_peaks_to_index : ℕ) :
    List VCandidate :=
  (pairCombinations (choose_peak_ids peaks n_peaks_to_index)).flatMap
    (pairCandidates peaks phase_index ph mag_tol angle_tol index_error_tol)

/-- Python's stable `sorted(solutions, key=attrgetter("match_rate"),
reverse=True)` (descending, ties in input order). -/
def sortByMatchRate (l : List OrientationResultR) : List OrientationResultR :=
  List.insertionSort (fun a b => b.match_rate ≤ a.match_rate) l

/-- The `n_best` output slots of one phase (lines 580-581 and 669-695):
a phase processed with at least two peaks gets its top-`n_best`
solutions sorted by descending match rate, padded to `n_best` with the
sentinel entry; a phase skipped because fewer than two peaks were
supplied (`continue`, line 580-581) leaves its `np.empty(dtype=object)`
slots uninitialised (`none`). -/
def phaseRows (peaks : List Vec3) (mag_tol angle_tol index_error_tol : ℝ)
    (n_peaks_to_index n_best : ℕ) (phase_index : ℕ) (ph : PhaseV) :
    List (Option OrientationResultR) :=
  if peaks.length < 2 then List.replicate n_best none
  else
    let sols := (phaseCandidates peaks phase_index ph mag_tol angle_tol
      index_error_tol n_peaks_to_index).map (·.sol)
    let n_solutions := min n_best sols.length
    ((sortByMatchRate sols).take n_solutions).map some ++
      List.replicate (n_best - n_solutions) (some dummyOrientationResult)

/-- The `res_rhkls` contribution of one phase (lines 568, 667): empty
when the phase is skipped. -/
def phaseRhkls (peaks : List Vec3) (mag_tol angle_tol index_error_tol : ℝ)
    (n_peaks_to_index : ℕ) (phase_index : ℕ) (ph : PhaseV) : List (List Vec3) :=
  if peaks.length < 2 then []
  else (phaseCandidates peaks phase_index ph mag_tol angle_tol index_error_tol
    n_peaks_to_index).map (·.rhkls)

/-- `match_vectors` (indexation_utils.py 530-705): the flattened
`top_matches` array of `len(library) * n_best` object slots, and
`res_rhkls`. -/
def match_vectors (peaks : List Vec3) (library : List PhaseV)
    (mag_tol angle_tol index_error_tol : ℝ) (n_peaks_to_index n_best : ℕ) :
    List (Option OrientationResultR) × List (List Vec3) :=
  (segmentsJoin
     (phaseRows peaks mag_tol angle_tol index_error_tol n_peaks_to_index n_best)
     0 library,
   segmentsJoin
     (phaseRhkls peaks mag_tol angle_tol index_error_tol n_peaks_to_index)
     0 library)

/-- `correlate_library` (indexation_utils.py 304-426): an
`np.empty((len(library), n_largest, 3), dtype=object)` array — all
entries `None` — filled per phase only when `mask == 1`, returned
reshaped to `(len(library)*n_largest, 3)`. -/
def correlate_library (img : ImageR) (library : List (List TemplateR))
    (n_largest : ℕ) (method : CorrMethod) (mask : ℤ) : List (Option CorrRow) :=
  if mask = 1 then segmentsJoin (phaseTopMatches img method n_largest) 0 library
  else List.replicate (library.length * n_largest) none

end

/-! ## Theorems -/

section Theorems

set_option maxRecDepth 10000

/-- The polar round trip is the identity on each coordinate pair. -/
theorem polar_point_roundtrip (x y : ℝ) :
    (Real.sqrt (x * x + y * y) * Real.cos (Complex.arg ⟨x, y⟩),
     Real.sqrt (x * x + y * y) * Real.sin (Complex.arg ⟨x, y⟩)) = (x, y) := by
  have habs : Complex.abs ⟨x, y⟩ = Real.sqrt (x * x + y * y) := by
    rw [Complex.abs_apply, Complex.normSq_mk]
  rw [← habs]
  exact Prod.ext (Complex.abs_mul_cos_arg ⟨x, y⟩) (Complex.abs_mul_sin_arg ⟨x, y⟩)

/-- Claim C9: for every array of nonzero 2D vectors `v`,
`polar_to_cartesian (vectors_to_polar v) = v` exactly (no quantization
is applied by this pair of functions). -/
theorem c9_polar_cartesian_roundtrip (v : List (ℝ × ℝ))
    (hv : ∀ p ∈ v, p ≠ ((0 : ℝ), (0 : ℝ))) :
    polar_to_cartesian (vectors_to_polar v) = v := by
  induction v with
  | nil => rfl
  | cons p t ih =>
    have ht := ih (fun q hq => hv q (List.mem_cons_of_mem p hq))
    simp only [vectors_to_polar, polar_to_cartesian, List.map_cons] at ht ⊢
    exact congrArg₂ List.cons (polar_point_roundtrip p.1 p.2) ht

/-- Witness for C9 at the vector (3, 4). -/
theorem c9_polar_cartesian_roundtrip_witness :
    polar_to_cartesian (vectors_to_polar [((3 : ℝ), (4 : ℝ))]) = [((3 : ℝ), (4 : ℝ))] :=
  c9_polar_cartesian_roundtrip [((3 : ℝ), (4 : ℝ))] (by
    intro p hp
    rw [List.mem_singleton] at hp
    subst hp
    simp only [ne_eq, Prod.mk.injEq, not_and]
    intro h3
    norm_num at h3)

/-- `idxOfMax` returns a valid index, and the element there bounds every
member of the list (`np.argmax` semantics). -/
theorem idxOfMax_spec {α : Type} [LinearOrder α] (d : α) :
    ∀ l : List α, l ≠ [] →
      idxOfMax l < l.length ∧ ∀ y ∈ l, y ≤ l.getD (idxOfMax l) d := by
  intro l
  induction l with
  | nil => intro h; exact absurd rfl h
  | cons x xs ih =>
    intro _
    cases xs with
    | nil =>
      refine ⟨by simp [idxOfMax], ?_⟩
      intro y hy
      rw [List.mem_singleton] at hy
      subst hy
      simp [idxOfMax]
    | cons z zs =>
      obtain ⟨hlt, hmax⟩ := ih (by simp)
      have hgetd : (z :: zs).getD (idxOfMax (z :: zs)) z
          = (z :: zs).getD (idxOfMax (z :: zs)) d := by
        rw [List.getD_eq_getElem _ _ hlt, List.getD_eq_getElem _ _ hlt]
      by_cases hc : x < (z :: zs).getD (idxOfMax (z :: zs)) z
      · have hidx : idxOfMax (x :: z :: zs) = idxOfMax (z :: zs) + 1 := by
          simp only [idxOfMax]
          rw [if_pos hc]
        refine ⟨?_, ?_⟩
        · rw [hidx, List.length_cons]
          exact Nat.succ_lt_succ hlt
        · intro y hy
          rw [hidx, List.getD_cons_succ]
          rcases List.mem_cons.mp hy with h | h
          · subst h
            exact le_of_lt (hgetd ▸ hc)
          · exact hmax y h
      · have hidx : idxOfMax (x :: z :: zs) = 0 := by
          simp only [idxOfMax]
          rw [if_neg hc]
        refine ⟨by rw [hidx]; exact Nat.succ_pos _, ?_⟩
        intro y hy
        rw [hidx, List.getD_cons_zero]
        rcases List.mem_cons.mp hy with h | h
        · subst h
          exact le_refl _
        · exact le_trans (hmax y h) (hgetd ▸ not_lt.mp hc)

/-- The best row selected by `crystal_from_template_matching`'s
multi-phase branch attains the globally maximal score. -/
theorem bestRow_score_max (z0 : TMatch) (rest : List TMatch) :
    ∀ m ∈ z0 :: rest, m.score ≤ (bestRow z0 rest).score := by
  intro m hm
  have hne : ((z0 :: rest).map (·.score)) ≠ [] := by simp
  obtain ⟨hlt, hmax⟩ := idxOfMax_spec (0 : ℚ) ((z0 :: rest).map (·.score)) hne
  have hlen : idxOfMax ((z0 :: rest).map (·.score)) < (z0 :: rest).length := by
    simpa using hlt
  have h1 := hmax m.score (List.mem_map_of_mem (·.score) hm)
  rw [List.getD_eq_getElem _ _ hlt, List.getElem_map] at h1
  unfold bestRow
  rw [List.getD_eq_getElem _ _ hlen]
  exact h1

/-- The multi-phase branch of `crystal_from_template_matching`,
characterized by the selected arg-max row and the two runner-up
scores. -/
theorem crystal_tm_multiphase (z0 : TMatch) (rest : List TMatch)
    (hmulti : ¬ (z0 :: rest).all (fun m => m.phase = z0.phase))
    (so sp : ℚ)
    (hso : secondLargest (samePhaseScores (z0 :: rest) (bestRow z0 rest).phase) = some so)
    (hsp : (otherPhaseScores (z0 :: rest) (bestRow z0 rest).phase).max? = some sp) :
    crystal_from_template_matching (z0 :: rest) =
      some ⟨(bestRow z0 rest).phase, (bestRow z0 rest).ori, (bestRow z0 rest).score,
            100 * (1 - so / (bestRow z0 rest).score),
            some (100 * (1 - sp / (bestRow z0 rest).score))⟩ := by
  simp only [crystal_from_template_matching]
  rw [if_neg hmulti, hso, hsp]

/-- The single-phase branch of `crystal_from_template_matching`. -/
theorem crystal_tm_singlephase (z0 z1 : TMatch) (rest : List TMatch)
    (hsingle : (z0 :: z1 :: rest).all (fun m => m.phase = z0.phase)) :
    crystal_from_template_matching (z0 :: z1 :: rest) =
      some ⟨z0.phase, z0.ori, z0.score,
            if 0 < z0.score then 100 * (1 - z1.score / z0.score) else 100,
            none⟩ := by
  simp only [crystal_from_template_matching]
  rw [if_pos hsingle]
  by_cases h0 : 0 < z0.score
  · rw [if_pos h0, if_pos h0]
  · rw [if_neg h0, if_neg h0]

/-- Claim C1: on a multi-phase template-matching array,
`crystal_from_template_matching` selects the row with the globally
maximal score, and sets
`orientation_reliability = 100*(1 - second_best_same_phase/best)` and
`phase_reliability = 100*(1 - best_other_phase/best)`; in particular
`[[0, th0, 100], [0, th1, 1], [1, th2, 50]]` selects phase 0 with
orientation `th0` and `phase_reliability = 50`. -/
theorem c1_crystal_from_template_matching_multiphase :
    (∀ (z0 : TMatch) (rest : List TMatch),
      ¬ (z0 :: rest).all (fun m => m.phase = z0.phase) →
      ∀ so sp : ℚ,
        secondLargest (samePhaseScores (z0 :: rest) (bestRow z0 rest).phase) = some so →
        (otherPhaseScores (z0 :: rest) (bestRow z0 rest).phase).max? = some sp →
        (∀ m ∈ z0 :: rest, m.score ≤ (bestRow z0 rest).score) ∧
        crystal_from_template_matching (z0 :: rest) =
          some ⟨(bestRow z0 rest).phase, (bestRow z0 rest).ori,
                (bestRow z0 rest).score,
                100 * (1 - so / (bestRow z0 rest).score),
                some (100 * (1 - sp / (bestRow z0 rest).score))⟩) ∧
    (∀ th0 th1 th2 : ℚ × ℚ × ℚ,
      crystal_from_template_matching
          [⟨0, th0, 100⟩, ⟨0, th1, 1⟩, ⟨1, th2, 50⟩] =
        some ⟨0, th0, 100, 99, some 50⟩) := by
  constructor
  · intro z0 rest hmulti so sp hso hsp
    exact ⟨bestRow_score_max z0 rest,
           crystal_tm_multiphase z0 rest hmulti so sp hso hsp⟩
  · intro th0 th1 th2
    have hb : bestRow ⟨0, th0, 100⟩ [⟨0, th1, 1⟩, ⟨1, th2, 50⟩]
        = (⟨0, th0, 100⟩ : TMatch) := rfl
    rw [crystal_tm_multiphase ⟨0, th0, 100⟩ [⟨0, th1, 1⟩, ⟨1, th2, 50⟩]
      (by simp) 1 50 rfl rfl, hb]
    norm_num

/-- Witness for C1 at
`[[0, o, 100], [0, o, 1], [1, o, 50]]` with `o = (0,0,0)`. -/
theorem c1_crystal_from_template_matching_multiphase_witness :
    (∀ m ∈ [(⟨0, (0, 0, 0), 100⟩ : TMatch), ⟨0, (0, 0, 0), 1⟩, ⟨1, (0, 0, 0), 50⟩],
        m.score ≤ (bestRow ⟨0, (0, 0, 0), 100⟩
          [⟨0, (0, 0, 0), 1⟩, ⟨1, (0, 0, 0), 50⟩]).score) ∧
    crystal_from_template_matching
        [⟨0, (0, 0, 0), 100⟩, ⟨0, (0, 0, 0), 1⟩, ⟨1, (0, 0, 0), 50⟩] =
      some ⟨(bestRow ⟨0, (0, 0, 0), 100⟩
               [⟨0, (0, 0, 0), 1⟩, ⟨1, (0, 0, 0), 50⟩]).phase,
            (bestRow ⟨0, (0, 0, 0), 100⟩
               [⟨0, (0, 0, 0), 1⟩, ⟨1, (0, 0, 0), 50⟩]).ori,
            (bestRow ⟨0, (0, 0, 0), 100⟩
               [⟨0, (0, 0, 0), 1⟩, ⟨1, (0, 0, 0), 50⟩]).score,
            100 * (1 - 1 / (bestRow ⟨0, (0, 0, 0), 100⟩
               [⟨0, (0, 0, 0), 1⟩, ⟨1, (0, 0, 0), 50⟩]).score),
            some (100 * (1 - 50 / (bestRow ⟨0, (0, 0, 0), 100⟩
               [⟨0, (0, 0, 0), 1⟩, ⟨1, (0, 0, 0), 50⟩]).score))⟩ :=
  c1_crystal_from_template_matching_multiphase.1
    ⟨0, (0, 0, 0), 100⟩ [⟨0, (0, 0, 0), 1⟩, ⟨1, (0, 0, 0), 50⟩]
    (by decide) 1 50 (by decide) (by decide)

/-- Claim C2: on a single-phase template-matching array,
`crystal_from_template_matching` returns the rank-0 entry's phase and
orientation, with `orientation_reliability = 100*(1 - second/best)` when
`best > 0` and `100` otherwise; in particular scores `[10, 10, 10]`
yield `orientation_reliability = 0`. -/
theorem c2_crystal_from_template_matching_singlephase :
    (∀ (z0 z1 : TMatch) (rest : List TMatch),
      (z0 :: z1 :: rest).all (fun m => m.phase = z0.phase) →
      crystal_from_template_matching (z0 :: z1 :: rest) =
        some ⟨z0.phase, z0.ori, z0.score,
              if 0 < z0.score then 100 * (1 - z1.score / z0.score) else 100,
              none⟩) ∧
    (∀ o0 o1 o2 : ℚ × ℚ × ℚ,
      crystal_from_template_matching [⟨0, o0, 10⟩, ⟨0, o1, 10⟩, ⟨0, o2, 10⟩] =
        some ⟨0, o0, 10, 0, none⟩) := by
  constructor
  · exact crystal_tm_singlephase
  · intro o0 o1 o2
    rw [crystal_tm_singlephase ⟨0, o0, 10⟩ ⟨0, o1, 10⟩ [⟨0, o2, 10⟩] (by simp)]
    norm_num

/-- Witness for C2 at `[[0, o, 10], [0, o, 5]]`. -/
theorem c2_crystal_from_template_matching_singlephase_witness :
    crystal_from_template_matching
        [(⟨0, (0, 0, 0), 10⟩ : TMatch), ⟨0, (0, 0, 0), 5⟩] =
      some ⟨0, (0, 0, 0), 10,
            if 0 < (10 : ℚ) then 100 * (1 - (5 : ℚ) / 10) else 100, none⟩ :=
  c2_crystal_from_template_matching_singlephase.1
    ⟨0, (0, 0, 0), 10⟩ ⟨0, (0, 0, 0), 5⟩ [] (by decide)

/-- The head of `sortByTotalError` has minimal `total_error` in the
pool. -/
theorem sortByTotalError_head_min {α : Type} (z : List (VMatch α))
    (best : VMatch α) (restSorted : List (VMatch α))
    (hsort : sortByTotalError z = best :: restSorted) :
    ∀ m ∈ z, best.total_error ≤ m.total_error := by
  haveI : IsTotal (VMatch α) (fun a b => a.total_error ≤ b.total_error) :=
    ⟨fun a b => le_total a.total_error b.total_error⟩
  haveI : IsTrans (VMatch α) (fun a b => a.total_error ≤ b.total_error) :=
    ⟨fun _ _ _ hab hbc => le_trans hab hbc⟩
  intro m hm
  have hsort' : List.insertionSort
      (fun a b : VMatch α => a.total_error ≤ b.total_error) z = best :: restSorted := hsort
  have hsorted := List.sorted_insertionSort
    (fun a b : VMatch α => a.total_error ≤ b.total_error) z
  have hperm := List.perm_insertionSort
    (fun a b : VMatch α => a.total_error ≤ b.total_error) z
  rw [hsort'] at hsorted hperm
  have hmem : m ∈ best :: restSorted := (hperm.mem_iff).mpr hm
  rcases List.mem_cons.mp hmem with h | h
  · subst h
    exact le_refl _
  · exact (List.sorted_cons.mp hsorted).1 m h

/-- The `vmPhaseRel` computation when no other-phase row exists. -/
theorem vmPhaseRel_single {α : Type} (z : List (VMatch α)) (best : VMatch α)
    (hother : vmOther z best = []) : vmPhaseRel z best = some none := by
  unfold vmPhaseRel
  rw [hother]
  rfl

/-- The `vmPhaseRel` computation when other-phase rows exist. -/
theorem vmPhaseRel_multi {α : Type} (z : List (VMatch α)) (best sbp : VMatch α)
    (rsb : List (VMatch α))
    (hsbp : sortByTotalError (vmOther z best) = sbp :: rsb) :
    vmPhaseRel z best =
      some (some (100 * (1 - best.total_error / sbp.total_error))) := by
  have hne : vmOther z best ≠ [] := by
    intro h
    rw [h] at hsbp
    exact List.noConfusion (hsbp.symm.trans rfl : sbp :: rsb = sortByTotalError [])
  unfold vmPhaseRel
  rw [if_neg (by simpa [List.isEmpty_iff] using hne), hsbp]

/-- Shared core for claim C5: the result of
`crystal_from_vector_matching` given the sorted pool, the runner-up and
the phase-reliability value. -/
theorem crystal_vm_eq {α : Type} (m2e : α → ℚ × ℚ × ℚ) (z : List (VMatch α))
    (best second : VMatch α) (restSorted : List (VMatch α)) (pr : Option ℚ)
    (hsort : sortByTotalError z = best :: restSorted)
    (hsecond : vmRunnerUp z best restSorted = some second)
    (hpr : vmPhaseRel z best = some pr) :
    crystal_from_vector_matching m2e z =
      some ⟨best.phase_index, m2e best.rotation_matrix, best.match_rate,
            best.error_hkls, best.total_error,
            100 * (1 - best.total_error /
              (if second.total_error = 0 then 1 else second.total_error)),
            pr⟩ := by
  unfold crystal_from_vector_matching
  rw [hsort]
  simp only [crystalVMAux]
  rw [hsecond, hpr]
  rfl

/-- Claim C5 (amended): in `crystal_from_vector_matching` the best match
minimizes `total_error`;
`orientation_reliability = 100*(1 - best_err/runner_up_err)` with `1.0`
substituted for the divisor exactly when the runner-up's `total_error`
equals 0 (this is what guards division by zero — Python `or`), and
(multi-phase) `phase_reliability = 100*(1 - best_err/best_other_err)`.
A completely absent runner-up is not substituted: it raises
(`IndexError`), see the counterexample. -/
theorem c5_crystal_from_vector_matching_reliability :
    (∀ (α : Type) (m2e : α → ℚ × ℚ × ℚ) (z : List (VMatch α))
       (best second : VMatch α) (restSorted : List (VMatch α)),
      sortByTotalError z = best :: restSorted →
      vmRunnerUp z best restSorted = some second →
      vmOther z best = [] →
      (∀ m ∈ z, best.total_error ≤ m.total_error) ∧
      crystal_from_vector_matching m2e z =
        some ⟨best.phase_index, m2e best.rotation_matrix, best.match_rate,
              best.error_hkls, best.total_error,
              100 * (1 - best.total_error /
                (if second.total_error = 0 then 1 else second.total_error)),
              none⟩) ∧
    (∀ (α : Type) (m2e : α → ℚ × ℚ × ℚ) (z : List (VMatch α))
       (best second sbp : VMatch α) (restSorted rsb : List (VMatch α)),
      sortByTotalError z = best :: restSorted →
      vmRunnerUp z best restSorted = some second →
      sortByTotalError (vmOther z best) = sbp :: rsb →
      (∀ m ∈ z, best.total_error ≤ m.total_error) ∧
      crystal_from_vector_matching m2e z =
        some ⟨best.phase_index, m2e best.rotation_matrix, best.match_rate,
              best.error_hkls, best.total_error,
              100 * (1 - best.total_error /
                (if second.total_error = 0 then 1 else second.total_error)),
              some (100 * (1 - best.total_error / sbp.total_error))⟩) := by
  constructor
  · intro α m2e z best second restSorted hsort hsecond hother
    exact ⟨sortByTotalError_head_min z best restSorted hsort,
           crystal_vm_eq m2e z best second restSorted none hsort hsecond
             (vmPhaseRel_single z best hother)⟩
  · intro α m2e z best second sbp restSorted rsb hsort hsecond hsbp
    exact ⟨sortByTotalError_head_min z best restSorted hsort,
           crystal_vm_eq m2e z best second restSorted _ hsort hsecond
             (vmPhaseRel_multi z best sbp rsb hsbp)⟩

/-- Counterexample for C5 as stated: with a single-row pool the
runner-up is completely absent; the source raises `IndexError`
(modelled `none`) instead of substituting a runner-up error of 1.0 (the
claim would predict `orientation_reliability = 100*(1 - (1/2)/1) =
50`). -/
theorem c5_crystal_from_vector_matching_reliability_counterexample :
    crystal_from_vector_matching (fun _ : Unit => ((0 : ℚ), (0 : ℚ), (0 : ℚ)))
      [⟨0, (), 1 / 2, [], 1 / 2⟩] = none := by
  rfl

/-- Witness for C5 at a two-phase pool
(errors 1, 2 in phase 0; 3 in phase 1). -/
theorem c5_crystal_from_vector_matching_reliability_witness :
    (∀ m ∈ [(⟨0, (), 4, [], 1⟩ : VMatch Unit),
            ⟨0, (), 3, [], 2⟩, ⟨1, (), 2, [], 3⟩],
      ((⟨0, (), 4, [], 1⟩ : VMatch Unit)).total_error ≤ m.total_error) ∧
    crystal_from_vector_matching (fun _ : Unit => ((0 : ℚ), (0 : ℚ), (0 : ℚ)))
        [⟨0, (), 4, [], 1⟩, ⟨0, (), 3, [], 2⟩, ⟨1, (), 2, [], 3⟩] =
      some ⟨0, (0, 0, 0), 4, [], 1,
            100 * (1 - (1 : ℚ) /
              (if ((⟨0, (), 3, [], 2⟩ : VMatch Unit)).total_error = 0
               then 1
               else ((⟨0, (), 3, [], 2⟩ : VMatch Unit)).total_error)),
            some (100 * (1 - (1 : ℚ) /
              ((⟨1, (), 2, [], 3⟩ : VMatch Unit)).total_error))⟩ :=
  c5_crystal_from_vector_matching_reliability.2 Unit
    (fun _ => ((0 : ℚ), (0 : ℚ), (0 : ℚ)))
    [⟨0, (), 4, [], 1⟩, ⟨0, (), 3, [], 2⟩, ⟨1, (), 2, [], 3⟩]
    ⟨0, (), 4, [], 1⟩ ⟨0, (), 3, [], 2⟩ ⟨1, (), 2, [], 3⟩
    [⟨0, (), 3, [], 2⟩, ⟨1, (), 2, [], 3⟩]
    [] (by decide) (by decide) (by decide)

/-- Claim C6: `zero_mean_normalized_correlation` returns 0 whenever its
`match_denominator` vanishes (and is a total function: never `nan`,
never raises). -/
theorem c6_zero_mean_correlation_zero_denominator (nb_pixels : ℕ)
    (image_std average_image_intensity : ℝ) (image_intensities int_local : List ℝ)
    (h : match_denominator nb_pixels image_std int_local = 0) :
    zero_mean_normalized_correlation nb_pixels image_std average_image_intensity
      image_intensities int_local = 0 := by
  unfold zero_mean_normalized_correlation
  rw [if_pos h]

/-- Witness for C6: a zero image standard deviation makes the
denominator vanish. -/
theorem c6_zero_mean_correlation_zero_denominator_witness :
    zero_mean_normalized_correlation 4 0 1 [1, 2] [3, 4] = 0 :=
  c6_zero_mean_correlation_zero_denominator 4 0 1 [1, 2] [3, 4]
    (by simp [match_denominator])

/-- Claim C7: in the two-stage polar matchers the coarse-filter fraction
is derived from `keep` by: `keep >= 1` (checked first) gives the
absolute-survivor-count formula `max((N - keep)/N, 0)`; otherwise
`0 < keep <= 1` gives the retained proportion `1 - keep`; any other
`keep` yields the `ValueError` immediately, before the matching pipeline
is consulted — for `get_n_best_matches` and
`correlate_library_to_pattern_partial` alike, whatever the downstream
pipeline computes. -/
theorem c7_keep_validation :
    (∀ (n : ℕ) (keep : ℚ), 1 ≤ keep →
      keep_to_fraction n keep = Except.ok (max (((n : ℚ) - keep) / n) 0)) ∧
    (∀ (n : ℕ) (keep : ℚ), ¬ 1 ≤ keep → 0 < keep →
      keep_to_fraction n keep = Except.ok (1 - keep)) ∧
    (∀ (n : ℕ) (keep : ℚ), keep ≤ 0 →
      keep_to_fraction n keep =
        Except.error "keep should be an integer >1 or a float [0-1]") ∧
    (∀ (α β : Type) (prepared : α) (n : ℕ) (keep : ℚ) (n_best : ℕ)
      (pipeline : α → ℚ → ℕ → β), 1 ≤ keep →
      get_n_best_matches prepared n keep n_best pipeline =
        Except.ok (pipeline prepared (max (((n : ℚ) - keep) / n) 0) n_best)) ∧
    (∀ (α β : Type) (prepared : α) (n : ℕ) (keep : ℚ) (n_best : ℕ)
      (pipeline : α → ℚ → ℕ → β), keep ≤ 0 →
      get_n_best_matches prepared n keep n_best pipeline =
        Except.error "keep should be an integer >1 or a float [0-1]") ∧
    (∀ (α β : Type) (prepared : α) (n : ℕ) (keep : ℚ)
      (pipeline : α → ℚ → β), keep ≤ 0 →
       correlate_library_to_pattern_partial prepared n keep pipeline =
        Except.error "keep should be an integer >1 or a float [0-1]") := by
  have hok : ∀ (n : ℕ) (keep : ℚ), 1 ≤ keep →
      keep_to_fraction n keep = Except.ok (max (((n : ℚ) - keep) / n) 0) := by
    intro n keep h
    unfold keep_to_fraction
    rw [if_pos h]
  have herr : ∀ (n : ℕ) (keep : ℚ), keep ≤ 0 →
      keep_to_fraction n keep =
        Except.error "keep should be an integer >1 or a float [0-1]" := by
    intro n keep h
    unfold keep_to_fraction
    rw [if_neg (by linarith), if_neg (by rintro ⟨h1, _⟩; linarith)]
  refine ⟨hok, ?_, herr, ?_, ?_, ?_⟩
  · intro n keep h1 h0
    unfold keep_to_fraction
    rw [if_neg h1, if_pos ⟨h0, le_of_lt (not_le.mp h1)⟩]
  · intro α β prepared n keep n_best pipeline h
    unfold get_n_best_matches
    rw [hok n keep h]
  · intro α β prepared n keep n_best pipeline h
    unfold get_n_best_matches
    rw [herr n keep h]
  · intro α β prepared n keep pipeline h
    unfold correlate_library_to_pattern_partial
    rw [herr n keep h]

/-- Witness for C7: concrete instances of all six conjuncts
(`keep = 3` absolute count over 10 templates, `keep = 1/4` proportion,
`keep = -1` rejected, also through both matcher wrappers). -/
theorem c7_keep_validation_witness :
    keep_to_fraction 10 3 = Except.ok (max (((10 : ℚ) - 3) / 10) 0) ∧
    keep_to_fraction 10 (1 / 4) = Except.ok (1 - 1 / 4) ∧
    keep_to_fraction 10 (-1) =
      Except.error "keep should be an integer >1 or a float [0-1]" ∧
    get_n_best_matches () 10 3 5 (fun _ f nb => (f, nb)) =
      Except.ok ((max (((10 : ℚ) - 3) / 10) 0), 5) ∧
    get_n_best_matches () 10 (-1) 5 (fun _ f nb => (f, nb)) =
      Except.error "keep should be an integer >1 or a float [0-1]" ∧
    correlate_library_to_pattern_partial () 10 (-1) (fun _ f => f) =
      Except.error "keep should be an integer >1 or a float [0-1]" :=
  ⟨c7_keep_validation.1 10 3 (by norm_num),
   c7_keep_validation.2.1 10 (1 / 4) (by norm_num) (by norm_num),
   c7_keep_validation.2.2.1 10 (-1) (by norm_num),
   c7_keep_validation.2.2.2.1 Unit _ () 10 3 5 _ (by norm_num),
   c7_keep_validation.2.2.2.2.1 Unit _ () 10 (-1) 5 _ (by norm_num),
   c7_keep_validation.2.2.2.2.2 Unit _ () 10 (-1) _ (by norm_num)⟩

theorem cross3_self (a : Vec3) : cross3 a a = 0 := by
  funext i
  fin_cases i <;> simp [cross3] <;> ring

theorem dot3_zero_left (v : Vec3) : dot3 0 v = 0 := by
  simp [dot3]

theorem sumabs3_zero : sumabs3 (0 : Vec3) = 0 := by
  simp [sumabs3]

theorem norm3_zero : norm3 (0 : Vec3) = 0 := by
  simp [norm3, dot3]

theorem normalize_or_zero_zero : normalize_or_zero (0 : Vec3) = 0 := by
  unfold normalize_or_zero
  rw [norm3_zero, if_neg (lt_irrefl 0)]

theorem isclose0_zero : isclose0 0 := by
  unfold isclose0
  norm_num

theorem dot3_self_nonneg (a : Vec3) : 0 ≤ dot3 a a := by
  have h0 := mul_self_nonneg (a 0)
  have h1 := mul_self_nonneg (a 1)
  have h2 := mul_self_nonneg (a 2)
  unfold dot3
  linarith

/-- `angle_between(v, v) = 0`: zero-norm fallback or `arccos 1`. -/
theorem get_angle_cartesian_self (a : Vec3) : get_angle_cartesian a a = 0 := by
  unfold get_angle_cartesian
  by_cases h : norm3 a * norm3 a = 0
  · rw [if_pos h]
  · rw [if_neg h]
    have hd : norm3 a * norm3 a = dot3 a a := Real.mul_self_sqrt (dot3_self_nonneg a)
    have hden : dot3 a a ≠ 0 := fun hz => h (by rw [hd, hz])
    rw [hd, div_self hden]
    have hclip : clipPM1 1 = 1 := by
      unfold clipPM1
      norm_num
    rw [hclip, Real.arccos_one]

/-- Rodrigues rotation by angle 0 is the identity, whatever the axis. -/
theorem axangle2mat_zero (ax : Vec3) : axangle2mat ax 0 = 1 := by
  unfold axangle2mat
  ext i j
  fin_cases i <;> fin_cases j <;>
    simp [Real.cos_zero, Real.sin_zero, Matrix.one_apply, Matrix.vecHead,
      Matrix.vecTail]

/-- The identity case of the per-row rotation recovery: both stages
degenerate (common axis vanishes, averaged in-plane angle is 0), so the
result is the identity matrix. -/
theorem rowRotation_self (a b : Vec3) : rowRotation a b a b = 1 := by
  simp only [rowRotation]
  rw [cross3_self (cross3 a b), normalize_or_zero_zero, sumabs3_zero,
    if_neg (not_not_intro isclose0_zero), Matrix.one_mulVec, Matrix.one_mulVec,
    get_angle_cartesian_self, get_angle_cartesian_self, cross3_self a,
    dot3_zero_left, if_neg (lt_irrefl (0 : ℝ)),
    show ((0 : ℝ) + 0) / 2 = 0 by norm_num, axangle2mat_zero, Matrix.one_mul]

/-- Claim C8: for linearly independent `a, b` (nonvanishing cross
product) and any list of target rows each equal to the reference pair,
`get_rotation_matrix_between_vectors(a, b, a, b)` returns the identity
matrix for every row. -/
theorem c8_rotation_between_identical_pairs (a b : Vec3)
    (tos : List (Vec3 × Vec3)) (hab : cross3 a b ≠ 0)
    (htos : ∀ t ∈ tos, t = (a, b)) :
    ∀ R ∈ get_rotation_matrix_between_vectors a b tos, R = 1 := by
  intro R hR
  unfold get_rotation_matrix_between_vectors at hR
  obtain ⟨t, ht, rfl⟩ := List.mem_map.mp hR
  rw [htos t ht]
  exact rowRotation_self a b

/-- Witness for C8 at `a = e1`, `b = e2` with two target rows: both
returned matrices are the identity. -/
theorem c8_rotation_between_identical_pairs_witness :
    get_rotation_matrix_between_vectors ![1, 0, 0] ![0, 1, 0]
        [(![1, 0, 0], ![0, 1, 0]), (![1, 0, 0], ![0, 1, 0])] =
      [(1 : Matrix (Fin 3) (Fin 3) ℝ), 1] := by
  have h := c8_rotation_between_identical_pairs ![1, 0, 0] ![0, 1, 0]
    [(![1, 0, 0], ![0, 1, 0]), (![1, 0, 0], ![0, 1, 0])]
    (by
      intro h
      have h2 := congrFun h 2
      norm_num [cross3] at h2)
    (by
      intro t ht
      rcases List.mem_cons.mp ht with h | h
      · exact h
      · rcases List.mem_singleton.mp h with rfl
        rfl)
  have h1 : rowRotation ![1, 0, 0] ![0, 1, 0] ![1, 0, 0] ![0, 1, 0] = 1 := by
    apply h
    unfold get_rotation_matrix_between_vectors
    simp only [List.map_cons, List.map_nil]
    exact List.mem_cons_self _ _
  unfold get_rotation_matrix_between_vectors
  simp only [List.map_cons, List.map_nil]
  rw [h1]

theorem segmentsJoin_length {φ ρ : Type} (f : ℕ → φ → List ρ) (n : ℕ)
    (hf : ∀ i x, (f i x).length = n) :
    ∀ (l : List φ) (i : ℕ), (segmentsJoin f i l).length = l.length * n := by
  intro l
  induction l with
  | nil => intro i; simp [segmentsJoin]
  | cons x xs ih =>
    intro i
    simp only [segmentsJoin, List.length_append, hf i x, ih (i + 1),
      List.length_cons]
    ring

theorem segmentsJoin_replicate {φ ρ : Type} (f : ℕ → φ → List ρ) (n : ℕ) (c : ρ)
    (hf : ∀ i x, f i x = List.replicate n c) :
    ∀ (l : List φ) (i : ℕ),
      segmentsJoin f i l = List.replicate (l.length * n) c := by
  intro l
  induction l with
  | nil => intro i; simp [segmentsJoin]
  | cons x xs ih =>
    intro i
    rw [segmentsJoin, hf i x, ih (i + 1), List.length_cons, Nat.succ_mul,
      Nat.add_comm (xs.length * n) n, List.replicate_add]

theorem segmentsJoin_segment {φ ρ : Type} (f : ℕ → φ → List ρ) (n : ℕ) (d : φ)
    (hf : ∀ i x, (f i x).length = n) :
    ∀ (l : List φ) (p i : ℕ), p < l.length →
      ((segmentsJoin f i l).drop (p * n)).take n = f (i + p) (l.getD p d) := by
  intro l
  induction l with
  | nil =>
    intro p i h
    exact absurd h (by simp)
  | cons x xs ih =>
    intro p i hp
    cases p with
    | zero =>
      simp only [segmentsJoin, Nat.zero_mul, List.drop_zero,
        List.getD_cons_zero, Nat.add_zero]
      exact List.take_left' (hf i x)
    | succ q =>
      have hq : q < xs.length := by
        have := hp
        rw [List.length_cons] at this
        omega
      simp only [segmentsJoin, List.getD_cons_succ]
      have harith : (q + 1) * n = (f i x).length + q * n := by
        rw [hf i x, Nat.succ_mul, Nat.add_comm]
      rw [harith, List.drop_append, ih q (i + 1) hq]
      congr 1
      omega

theorem topKStep_lengths (acc : List (ℝ × ℝ × ℝ) × List ℝ) (ori : ℝ × ℝ × ℝ)
    (corr : ℝ) :
    (topKStep acc ori corr).1.length = acc.1.length ∧
    (topKStep acc ori corr).2.length = acc.2.length := by
  unfold topKStep
  by_cases h : (acc.2.min?.getD 0) < corr
  · rw [if_pos h]
    exact ⟨List.length_set .., List.length_set ..⟩
  · rw [if_neg h]
    exact ⟨rfl, rfl⟩

theorem topK_fold_lengths (img : ImageR) (method : CorrMethod)
    (ts : List TemplateR) :
    ∀ init : List (ℝ × ℝ × ℝ) × List ℝ,
      (ts.foldl (fun acc t => topKStep acc t.ori (corrScore img method t))
        init).1.length = init.1.length ∧
      (ts.foldl (fun acc t => topKStep acc t.ori (corrScore img method t))
        init).2.length = init.2.length := by
  induction ts with
  | nil => intro init; exact ⟨rfl, rfl⟩
  | cons t ts ih =>
    intro init
    rw [List.foldl_cons]
    have h1 := topKStep_lengths init t.ori (corrScore img method t)
    have h2 := ih (topKStep init t.ori (corrScore img method t))
    exact ⟨h2.1.trans h1.1, h2.2.trans h1.2⟩

/-- Every per-phase block of `correlate_library` has exactly `n_largest`
slots. -/
theorem phaseTopMatches_length (img : ImageR) (method : CorrMethod)
    (n_largest : ℕ) :
    ∀ (i : ℕ) (templates : List TemplateR),
      (phaseTopMatches img method n_largest i templates).length = n_largest := by
  intro i templates
  cases templates with
  | nil => simp [phaseTopMatches]
  | cons t ts =>
    simp only [phaseTopMatches]
    rw [List.length_map, List.length_insertionSort, List.length_zip]
    have h := topK_fold_lengths img method (t :: ts)
      (List.replicate n_largest ((0, 0, 0) : ℝ × ℝ × ℝ),
       List.replicate n_largest (0 : ℝ))
    rw [h.1, h.2, List.length_replicate, List.length_replicate, Nat.min_self]

/-- Claim C10: `correlate_library` always returns
`len(library) * n_largest` slots (in numpy: shape `(·, 3)`), and with
`mask != 1` performs no scoring and returns every slot as the
uninitialised object sentinel `None`, raising no exception.
(`n_largest >= 1` per the configuration contract; numpy's `np.min` over
an empty `corr_saved` would itself raise for `n_largest = 0`.) -/
theorem c10_correlate_library_shape_mask :
    (∀ (img : ImageR) (library : List (List TemplateR)) (n_largest : ℕ)
       (method : CorrMethod) (mask : ℤ), 1 ≤ n_largest →
      (correlate_library img library n_largest method mask).length =
        library.length * n_largest) ∧
    (∀ (img : ImageR) (library : List (List TemplateR)) (n_largest : ℕ)
       (method : CorrMethod) (mask : ℤ), mask ≠ 1 →
      correlate_library img library n_largest method mask =
        List.replicate (library.length * n_largest) none) := by
  constructor
  · intro img library n_largest method mask _
    unfold correlate_library
    by_cases h : mask = 1
    · rw [if_pos h]
      exact segmentsJoin_length _ n_largest (phaseTopMatches_length img method n_largest)
        library 0
    · rw [if_neg h, List.length_replicate]
  · intro img library n_largest method mask h
    unfold correlate_library
    rw [if_neg h]

/-- Witness for C10 with a one-phase library and `mask = 0`. -/
theorem c10_correlate_library_shape_mask_witness :
    (correlate_library ⟨1, 1, fun _ _ => 0⟩ [[]] 1 CorrMethod.fast_corr 0).length =
      [([] : List TemplateR)].length * 1 ∧
    correlate_library ⟨1, 1, fun _ _ => 0⟩ [[]] 1 CorrMethod.fast_corr 0 =
      List.replicate ([([] : List TemplateR)].length * 1) none :=
  ⟨c10_correlate_library_shape_mask.1 ⟨1, 1, fun _ _ => 0⟩ [[]] 1
      CorrMethod.fast_corr 0 (by norm_num),
   c10_correlate_library_shape_mask.2 ⟨1, 1, fun _ _ => 0⟩ [[]] 1
      CorrMethod.fast_corr 0 (by norm_num)⟩

/-- Every per-phase block of `match_vectors` has exactly `n_best`
slots. -/
theorem phaseRows_length (peaks : List Vec3)
    (mag_tol angle_tol index_error_tol : ℝ) (n_peaks_to_index n_best : ℕ) :
    ∀ (i : ℕ) (ph : PhaseV),
      (phaseRows peaks mag_tol angle_tol index_error_tol n_peaks_to_index
        n_best i ph).length = n_best := by
  intro i ph
  unfold phaseRows
  by_cases h : peaks.length < 2
  · rw [if_pos h, List.length_replicate]
  · rw [if_neg h]
    have hlen :
        (sortByMatchRate ((phaseCandidates peaks i ph mag_tol angle_tol
          index_error_tol n_peaks_to_index).map (·.sol))).length =
        ((phaseCandidates peaks i ph mag_tol angle_tol index_error_tol
          n_peaks_to_index).map (·.sol)).length :=
      List.length_insertionSort _ _
    simp only [List.length_append, List.length_map, List.length_take,
      List.length_replicate, hlen]
    omega

/-- Claim C3 (amended): `match_vectors` always returns exactly
`len(library) * n_best` solution slots; with at least two peaks every
phase's block is its sorted top solutions padded to `n_best` with the
sentinel entry; with fewer than two peaks every phase is skipped before
the padding, leaving all slots uninitialised (`None`), not sentinel. -/
theorem c3_match_vectors_padding :
    (∀ (peaks : List Vec3) (library : List PhaseV)
       (mag_tol angle_tol index_error_tol : ℝ) (n_peaks_to_index n_best : ℕ),
      (match_vectors peaks library mag_tol angle_tol index_error_tol
        n_peaks_to_index n_best).1.length = library.length * n_best) ∧
    (∀ (peaks : List Vec3) (library : List PhaseV)
       (mag_tol angle_tol index_error_tol : ℝ) (n_peaks_to_index n_best : ℕ),
      2 ≤ peaks.length → ∀ p, p < library.length →
      (((match_vectors peaks library mag_tol angle_tol index_error_tol
          n_peaks_to_index n_best).1.drop (p * n_best)).take n_best) =
        ((sortByMatchRate ((phaseCandidates peaks p (library.getD p defaultPhaseV)
            mag_tol angle_tol index_error_tol n_peaks_to_index).map (·.sol))).take
          (min n_best ((phaseCandidates peaks p (library.getD p defaultPhaseV)
            mag_tol angle_tol index_error_tol n_peaks_to_index).map (·.sol)).length)).map
            some ++
        List.replicate
          (n_best - min n_best ((phaseCandidates peaks p (library.getD p defaultPhaseV)
            mag_tol angle_tol index_error_tol n_peaks_to_index).map (·.sol)).length)
          (some dummyOrientationResult)) ∧
    (∀ (peaks : List Vec3) (library : List PhaseV)
       (mag_tol angle_tol index_error_tol : ℝ) (n_peaks_to_index n_best : ℕ),
      peaks.length < 2 →
      (match_vectors peaks library mag_tol angle_tol index_error_tol
        n_peaks_to_index n_best).1 =
        List.replicate (library.length * n_best) none) := by
  refine ⟨?_, ?_, ?_⟩
  · intro peaks library mag_tol angle_tol iet npti n_best
    unfold match_vectors
    exact segmentsJoin_length _ n_best
      (phaseRows_length peaks mag_tol angle_tol iet npti n_best) library 0
  · intro peaks library mag_tol angle_tol iet npti n_best h2 p hp
    unfold match_vectors
    rw [segmentsJoin_segment _ n_best defaultPhaseV
      (phaseRows_length peaks mag_tol angle_tol iet npti n_best) library p 0 hp]
    unfold phaseRows
    rw [if_neg (Nat.not_lt.mpr h2), Nat.zero_add]
  · intro peaks library mag_tol angle_tol iet npti n_best h2
    unfold match_vectors
    refine segmentsJoin_replicate _ n_best none ?_ library 0
    intro i ph
    unfold phaseRows
    rw [if_pos h2]

/-- Counterexample for C3 as stated: with an empty peaks array every
phase is skipped (`continue` before the sentinel fill), and its block
stays uninitialised (`None`) rather than holding the sentinel entry. -/
theorem c3_match_vectors_padding_counterexample :
    (match_vectors [] [⟨[], [], fun _ => 0, fun _ => 0⟩] 1 1 1 2 1).1 = [none] ∧
    (none : Option OrientationResultR) ≠ some dummyOrientationResult := by
  constructor
  · rfl
  · intro h
    exact Option.noConfusion h

/-- Witness for C3: the block equation at a two-peak input and the
all-`None` result at a no-peak input. -/
theorem c3_match_vectors_padding_witness :
    (((match_vectors [![1, 0, 0], ![0, 1, 0]] [⟨[], [], fun _ => 0, fun _ => 0⟩]
        1 1 1 2 1).1.drop (0 * 1)).take 1 =
      ((sortByMatchRate ((phaseCandidates [![1, 0, 0], ![0, 1, 0]] 0
          ([(⟨[], [], fun _ => 0, fun _ => 0⟩ : PhaseV)].getD 0 defaultPhaseV)
          1 1 1 2).map (·.sol))).take
        (min 1 ((phaseCandidates [![1, 0, 0], ![0, 1, 0]] 0
          ([(⟨[], [], fun _ => 0, fun _ => 0⟩ : PhaseV)].getD 0 defaultPhaseV)
          1 1 1 2).map (·.sol)).length)).map some ++
      List.replicate
        (1 - min 1 ((phaseCandidates [![1, 0, 0], ![0, 1, 0]] 0
          ([(⟨[], [], fun _ => 0, fun _ => 0⟩ : PhaseV)].getD 0 defaultPhaseV)
          1 1 1 2).map (·.sol)).length)
        (some dummyOrientationResult)) ∧
    (match_vectors [] [⟨[], [], fun _ => 0, fun _ => 0⟩] 1 1 1 2 1).1 =
      List.replicate ([(⟨[], [], fun _ => 0, fun _ => 0⟩ : PhaseV)].length * 1)
        none :=
  ⟨c3_match_vectors_padding.2.1 [![1, 0, 0], ![0, 1, 0]]
      [⟨[], [], fun _ => 0, fun _ => 0⟩] 1 1 1 2 1 (by norm_num) 0 (by norm_num),
   c3_match_vectors_padding.2.2 [] [⟨[], [], fun _ => 0, fun _ => 0⟩] 1 1 1 2 1
      (by norm_num)⟩

/-- With `mag_tol <= 0` the strict tolerance test `|m - q| < mag_tol`
admits no library row. -/
theorem pairTolFilter_nonpos (ph : PhaseV) (q1l q2l angle mag_tol angle_tol : ℝ)
    (h : mag_tol ≤ 0) :
    pairTolFilter ph q1l q2l angle mag_tol angle_tol = [] := by
  unfold pairTolFilter
  rw [List.filter_eq_nil_iff]
  intro mi _
  simp only [decide_eq_true_eq, not_and]
  intro h1
  exact absurd h1 (by
    have := abs_nonneg (mi.1.1 - q1l)
    intro hlt
    linarith)

theorem pairCandidates_magTol_nonpos (peaks : List Vec3) (i : ℕ) (ph : PhaseV)
    (mag_tol angle_tol index_error_tol : ℝ) (pr : ℕ × ℕ) (h : mag_tol ≤ 0) :
    pairCandidates peaks i ph mag_tol angle_tol index_error_tol pr = [] := by
  simp only [pairCandidates]
  rw [pairTolFilter_nonpos _ _ _ _ _ _ h]
  rfl

theorem phaseCandidates_magTol_nonpos (peaks : List Vec3) (i : ℕ) (ph : PhaseV)
    (mag_tol angle_tol index_error_tol : ℝ) (n_peaks_to_index : ℕ)
    (h : mag_tol ≤ 0) :
    phaseCandidates peaks i ph mag_tol angle_tol index_error_tol
      n_peaks_to_index = [] := by
  unfold phaseCandidates
  have hgen : ∀ prs : List (ℕ × ℕ),
      prs.flatMap (pairCandidates peaks i ph mag_tol angle_tol index_error_tol)
        = [] := by
    intro prs
    induction prs with
    | nil => rfl
    | cons q qs ih =>
      rw [List.flatMap_cons, ih,
        pairCandidates_magTol_nonpos peaks i ph mag_tol angle_tol
          index_error_tol q h]
      rfl
  exact hgen _

/-- Core of claim C4: with `mag_tol <= 0` no candidate ever survives the
magnitude filter, so every slot of the `match_vectors` result is the
sentinel (or uninitialised when fewer than two peaks are supplied). -/
theorem match_vectors_magTol_nonpos (peaks : List Vec3) (library : List PhaseV)
    (mag_tol angle_tol index_error_tol : ℝ) (n_peaks_to_index n_best : ℕ)
    (h : mag_tol ≤ 0) :
    (match_vectors peaks library mag_tol angle_tol index_error_tol
      n_peaks_to_index n_best).1 =
      List.replicate (library.length * n_best)
        (if peaks.length < 2 then none else some dummyOrientationResult) := by
  unfold match_vectors
  refine segmentsJoin_replicate _ n_best _ ?_ library 0
  intro i ph
  unfold phaseRows
  by_cases hp : peaks.length < 2
  · rw [if_pos hp, if_pos hp]
  · rw [if_neg hp, if_neg hp,
      phaseCandidates_magTol_nonpos peaks i ph mag_tol angle_tol
        index_error_tol n_peaks_to_index h]
    simp [sortByMatchRate]

/-- Claim C4 (amended): with `mag_tol = 0` the strict test
`|magnitude - library value| < 0` never passes, so `match_vectors`
returns no candidate at all — the result is all-sentinel (or
uninitialised when peaks < 2) even when the peak magnitudes exactly
equal library values.  A fortiori every returned candidate (there are
none) trivially satisfies exact equality, and the result is "empty" no
matter whether an exact equality exists. -/
theorem c4_match_vectors_magTol_zero (peaks : List Vec3) (library : List PhaseV)
    (angle_tol index_error_tol : ℝ) (n_peaks_to_index n_best : ℕ) :
    (match_vectors peaks library 0 angle_tol index_error_tol
      n_peaks_to_index n_best).1 =
      List.replicate (library.length * n_best)
        (if peaks.length < 2 then none else some dummyOrientationResult) :=
  match_vectors_magTol_nonpos peaks library 0 angle_tol index_error_tol
    n_peaks_to_index n_best (le_refl 0)

/-- Counterexample for C4 as stated: the peaks (3,4,0) and (0,0,5) have
magnitudes exactly 5 and 5, exactly equal to the library measurement row
(5, 5, 0), yet with `mag_tol = 0` the result contains no candidate —
only the sentinel entry. -/
theorem c4_match_vectors_magTol_zero_counterexample :
    norm3 ![3, 4, 0] = 5 ∧ norm3 ![0, 0, 5] = 5 ∧
    (match_vectors [![3, 4, 0], ![0, 0, 5]]
        [⟨[(![1, 0, 0], ![0, 1, 0])], [(5, 5, 0)], fun _ => 0, fun _ => 0⟩]
        0 10 1 2 1).1 = [some dummyOrientationResult] := by
  refine ⟨?_, ?_, ?_⟩
  · unfold norm3 dot3
    norm_num [Matrix.cons_val_zero, Matrix.cons_val_one, Matrix.head_cons]
    rw [show (25 : ℝ) = 5 ^ 2 by norm_num]
    exact Real.sqrt_sq (by norm_num)
  · unfold norm3 dot3
    norm_num [Matrix.cons_val_zero, Matrix.cons_val_one, Matrix.head_cons]
    rw [show (25 : ℝ) = 5 ^ 2 by norm_num]
    exact Real.sqrt_sq (by norm_num)
  · rw [match_vectors_magTol_nonpos _ _ _ _ _ _ _ (le_refl 0)]
    norm_num

end Theorems

end Pyxem
